import Mathlib

/-!
Verification of the PixelCNN training scripts
(`train_pixelcnn2.py` and `WIP/train_gatedpixelcnn_autoencoder.py`).

The development shallowly embeds the numerical core of the two scripts:
float32 values are modelled as exact rationals, tensors as functions, and
the stateful numpy/TensorFlow operations as explicit state passing.
-/

namespace PixelCNN

/-! ## Mask construction (`MaskedConv2D.build`)

The numpy code initialises a mask of ones with the kernel's shape and then
performs two slice assignments (the V branch performs one).  The mask value
only depends on the first two (spatial) indices, since the slices always
cover the trailing channel dimensions completely, so we model the mask as a
function of the kernel row and column.  `assignRowSliceCols m row colStart`
models `m[row, colStart:, :, :] = 0.` and `assignRowsFrom m rowStart` models
`m[rowStart:, :, :] = 0.`. -/

inductive MaskType where
  | V : MaskType
  | A : MaskType
  | B : MaskType
deriving DecidableEq

def assignRowSliceCols (m : ℕ → ℕ → ℚ) (row colStart : ℕ) : ℕ → ℕ → ℚ :=
  fun r c => if r = row ∧ colStart ≤ c then 0 else m r c

def assignRowsFrom (m : ℕ → ℕ → ℚ) (rowStart : ℕ) : ℕ → ℕ → ℚ :=
  fun r c => if rowStart ≤ r then 0 else m r c

/-- The mask built by `MaskedConv2D.build` for a `kernel_h × kernel_w`
kernel.  The `V` branch is `mask[kernel_h // 2:, :, :, :] = 0.`; the `A`/`B`
branch is `mask[kernel_h // 2, kernel_w // 2 + (mask_type == B):, :, :] = 0.`
followed by `mask[kernel_h // 2 + 1:, :, :] = 0.`.  (`train_pixelcnn2.py`
only has the `A`/`B` branch, with a square kernel.) -/
def buildMask (t : MaskType) (kh kw : ℕ) : ℕ → ℕ → ℚ :=
  match t with
  | .V => assignRowsFrom (fun _ _ => 1) (kh / 2)
  | .A => assignRowsFrom (assignRowSliceCols (fun _ _ => 1) (kh / 2) (kw / 2)) (kh / 2 + 1)
  | .B => assignRowsFrom (assignRowSliceCols (fun _ _ => 1) (kh / 2) (kw / 2 + 1)) (kh / 2 + 1)

/-! ## Quantization (`quantisize` in `train_pixelcnn2.py`, `quantise` in the
autoencoder script)

`np.digitize(x, bins)` with monotonically increasing `bins` (and the default
`right=False`) returns, for each scalar, the number of bin edges that are
`≤ x`.  The bin edges are `np.arange(levels) / levels`. -/

/-- `np.digitize` for a single scalar: the number of bin edges `≤ x`. -/
def digitizeCount (x : ℚ) (bins : List ℚ) : ℕ :=
  (bins.filter (fun b => decide (b ≤ x))).length

/-- `np.arange(levels) / levels`. -/
def arangeDiv (levels : ℕ) : List ℚ :=
  (List.range levels).map (fun k : ℕ => (k : ℚ) / (levels : ℚ))

/-- `quantisize` from `train_pixelcnn2.py`:
`(np.digitize(images, np.arange(levels) / levels) - 1).astype('int32')`. -/
def quantisize (x : ℚ) (levels : ℕ) : ℤ :=
  (digitizeCount x (arangeDiv levels) : ℤ) - 1

/-- `quantise` from the autoencoder script: the same formula, but cast to
`float32` instead of `int32`. -/
def quantise (x : ℚ) (q_levels : ℕ) : ℚ :=
  (digitizeCount x (arangeDiv q_levels) : ℚ) - 1

/-! ## Construction-time validation (`MaskedConv2D.__init__`)

A Python `assert` raises `AssertionError` before any attribute is set, so a
failed construction is modelled as an `Except.error` carrying no
configuration.  `train_pixelcnn2.py` accepts mask types in the set
`{'A', 'B'}`; the autoencoder script accepts `{'A', 'B', 'V'}` and
normalises an integer kernel size to a pair.  Neither `__init__` inspects
the kernel size in any way. -/

def exceptOk {ε α : Type} : Except ε α → Bool
  | .ok _ => true
  | .error _ => false

/-- `MaskedConv2D.__init__` of `train_pixelcnn2.py`: `assert mask_type in
set A B`, then store the configuration. -/
def maskedConv2DInitPlain (mask_type : String) (filters kernel_size strides : ℕ) :
    Except String (String × ℕ × ℕ × ℕ) :=
  if mask_type = "A" ∨ mask_type = "B" then
    Except.ok (mask_type, filters, kernel_size, strides)
  else Except.error "AssertionError"

/-- `MaskedConv2D.__init__` of the autoencoder script: `assert mask_type in
set A B V`, then normalise an `int` kernel size to a pair and store the
configuration. -/
def maskedConv2DInitGated (mask_type : String) (filters : ℕ) (kernel_size : ℕ ⊕ ℕ × ℕ) :
    Except String (String × ℕ × (ℕ × ℕ)) :=
  if mask_type = "A" ∨ mask_type = "B" ∨ mask_type = "V" then
    Except.ok (mask_type, filters,
      match kernel_size with
      | Sum.inl k => (k, k)
      | Sum.inr p => p)
  else Except.error "AssertionError"

/-! ## The conditioning broadcast of the autoencoder variant (claim C9)

`encoded = tf.broadcast_to(tf.expand_dims(tf.expand_dims(x, 1), 1),
[batch_size, height, width, 10])` where `x` has shape `[N, 10]` and
`batch_size` is the hardcoded constant 128.  `tf.broadcast_to` follows the
numpy broadcasting rule: after left-padding the source shape with ones to
the target rank, every source dimension must equal the corresponding target
dimension or be 1. -/

def broadcastCompatible (src dst : List ℕ) : Bool :=
  decide (src.length ≤ dst.length) &&
  ((List.replicate (dst.length - src.length) 1 ++ src).zip dst).all
    (fun sd => sd.1 == sd.2 || sd.1 == 1)

/-- Shape of `tf.expand_dims(tf.expand_dims(x, 1), 1)` for `x : [N, 10]`. -/
def encodedShape (n : ℕ) : List ℕ := [n, 1, 1, 10]

/-- The hardcoded broadcast target `[batch_size, height, width, 10]`. -/
def condBroadcastTarget : List ℕ := [128, 28, 28, 10]

/-- Whether the conditioning broadcast succeeds on a batch of `n` images. -/
def condBroadcastOk (n : ℕ) : Bool :=
  broadcastCompatible (encodedShape n) condBroadcastTarget

/-! ## `GatedBlock.call` input unpacking (claim C3)

`GatedBlock.call` begins with `v, h = input_tensor`, which unpacks its
input into exactly two values; the network assembly calls every block with
the three-element list `[inputs, inputs, encoded]`.  We model the unpacking
over an arbitrary tensor type: a list of any length other than two raises
`ValueError`, and on success the two unpacked tensors are handed to the
block body (`core`), which never receives the conditioning tensor. -/

def unpackTwo {T : Type} (ts : List T) : Except String (T × T) :=
  match ts with
  | [v, h] => Except.ok (v, h)
  | _ => Except.error "ValueError: cannot unpack into exactly two values"

def gatedBlockCallOnList {T : Type} (core : T → T → T × T) (ts : List T) :
    Except String (T × T) :=
  (unpackTwo ts).map (fun vh => core vh.1 vh.2)

/-! ## Training-step pipeline (claim C6)

The loss, gradient and optimizer computations are the external autodiff
collaborators of the spec; they enter the model as parameters.  The
learning-rate schedules and the global-norm clipping are concrete. -/

/-- `train_pixelcnn2.py` sets `learning_rate = 3e-4` once and never updates
`optimizer.lr`: the learning rate used at every iteration. -/
def lrPlain : ℕ → ℚ := fun _ => 3 / 10000

/-- The autoencoder script runs `optimizer.lr = optimizer.lr * lr_decay`
(with `lr_decay = 0.9995` and initial rate `1e-3`) immediately before every
`train_step`: the learning rate used at iteration `n`. -/
def lrGatedAE : ℕ → ℚ
  | 0 => 1 / 1000 * (9995 / 10000)
  | n + 1 => lrGatedAE n * (9995 / 10000)

/-- Sum of squares of a flattened gradient list: the square of the global
norm. -/
def sumSq (gs : List ℚ) : ℚ := (gs.map (fun g => g ^ 2)).sum

/-- `tf.clip_by_global_norm(gs, clip_norm)`: each entry is scaled by
`clip_norm / max(global_norm, clip_norm)`.  The global norm (a square root,
computed by the framework) is passed in as `gnorm`. -/
def clipByGlobalNorm (gnorm clipNorm : ℚ) (gs : List ℚ) : List ℚ :=
  if gnorm ≤ clipNorm then gs else gs.map (fun g => g * (clipNorm / gnorm))

/-- One `train_step`: forward pass, reshape/transpose of the logits,
categorical cross-entropy against the targets, gradient, global-norm clip
at the fixed threshold 1.0, optimizer step.  `forward`, `reshapeT`,
`lossFn`, `gradFn`, `gnorm` and `applyOpt` are the external collaborators. -/
def trainStepModel {P X Y L : Type} (forward : P → X → L) (reshapeT : L → L)
    (lossFn : L → Y → ℚ) (gradFn : ℚ → P → List ℚ) (gnorm : List ℚ → ℚ)
    (applyOpt : P → List ℚ → P) (params : P) (x : X) (y : Y) : P × ℚ :=
  let logits := reshapeT (forward params x)
  let loss := lossFn logits y
  let gs := gradFn loss params
  let clipped := clipByGlobalNorm (gnorm gs) 1 gs
  (applyOpt params clipped, loss)

/-! ## The ancestral sampler (claims C7 and C8)

The sampling loops of `train_pixelcnn2.py` (from row 0, and from the
occlusion start row 14) iterate `for i in range(startRow, 28): for j in
range(28):` and, at each position, run the network on the whole current
canvas, softmax the logits, take the distribution at `(i, j)` (channel 0),
draw one level per image with `np.random.choice` (threading numpy's seeded
generator sequentially through the batch), and write the drawn level
rescaled by `1 / (q_levels - 1)` into the canvas at `(i, j)`.  The `print`
statement draws a second, discarded batch of samples, which also advances
the generator.  `predict img i j` stands for the softmax of the network's
logits at `(i, j)` for one image (the network itself is embedded
separately), and `draw` for `np.random.choice` on one distribution with an
explicit generator state. -/

def Img : Type := ℕ → ℕ → ℚ

/-- `samples[:, i, j, 0] = v` for one image. -/
def writePix (img : Img) (i j : ℕ) (v : ℚ) : Img :=
  fun r c => if r = i ∧ c = j then v else img r c

/-- `sample_from(distribution)`: one `np.random.choice` per image,
sequentially threading the generator state through the batch. -/
def sampleFromRng {R : Type} (draw : R → List ℚ → ℕ × R) :
    R → List (List ℚ) → List ℕ × R
  | rng, [] => ([], rng)
  | rng, d :: ds =>
      let a := draw rng d
      let rest := sampleFromRng draw a.2 ds
      (a.1 :: rest.1, rest.2)

/-- The body of the sampling loop at one raster position: a full forward
pass over the whole current canvas, the per-image distributions at the
position, one drawn level per image (plus the second, discarded draw made
by the `print` statement), and the rescaled write-back. -/
def samplerStep {R : Type} (q_levels : ℕ) (predict : Img → ℕ → ℕ → List ℚ)
    (draw : R → List ℚ → ℕ × R) (st : List Img × R) (p : ℕ × ℕ) : List Img × R :=
  let dists := st.1.map (fun img => predict img p.1 p.2)
  let drawn := sampleFromRng draw st.2 dists
  let discarded := sampleFromRng draw drawn.2 dists
  (List.zipWith
      (fun (img : Img) (lv : ℕ) => writePix img p.1 p.2 ((lv : ℚ) / ((q_levels : ℚ) - 1)))
      st.1 drawn.1,
   discarded.2)

/-- The nested `for i in range(startRow, H): for j in range(W):` loop. -/
def samplerLoopNested {R : Type} (q_levels : ℕ) (predict : Img → ℕ → ℕ → List ℚ)
    (draw : R → List ℚ → ℕ × R) (startRow H W : ℕ) (st0 : List Img × R) :
    List Img × R :=
  (List.range' startRow (H - startRow)).foldl
    (fun st i =>
      (List.range W).foldl (fun st2 j => samplerStep q_levels predict draw st2 (i, j)) st)
    st0

/-- The raster-order position list: rows `startRow, …, H-1`, and within each
row the columns `0, …, W-1`. -/
def rasterOrder (startRow H W : ℕ) : List (ℕ × ℕ) :=
  (List.range' startRow (H - startRow)).flatMap
    (fun i => (List.range W).map (fun j => (i, j)))

/-! ## The networks (claim C1)

Feature maps are functions from integer spatial coordinates and a channel
index to a rational value; a 28×28 input image enters the network through
`padGrid`, which realises the zero padding of `padding='SAME'`
convolutions.  All kernels in both networks are odd-sized and stride 1, so
`tf.nn.conv2d` with SAME padding reads the input at offsets
`-(k/2), …, k/2` around the output position.  The `tanh` and `sigmoid` of
the gating nonlinearity are transcendental; they enter the embedding as the
parameters `σ` and `τ`. -/

abbrev FMap (C : ℕ) : Type := ℤ → ℤ → Fin C → ℚ

/-- Zero SAME-padding of an `H × W` image. -/
def padGrid (H W : ℕ) {C : ℕ} (img : FMap C) : FMap C :=
  fun i j c =>
    if 0 ≤ i ∧ i < (H : ℤ) ∧ 0 ≤ j ∧ j < (W : ℤ) then img i j c else 0

/-- `tf.nn.conv2d(input, kernel, strides=1, padding='SAME')` plus
`tf.nn.bias_add`, for an odd-sized kernel. -/
def conv2dSame {kh kw Ci Co : ℕ} (K : Fin kh → Fin kw → Fin Ci → Fin Co → ℚ)
    (b : Fin Co → ℚ) (x : FMap Ci) : FMap Co :=
  fun i j o =>
    b o + ∑ di : Fin kh, ∑ dj : Fin kw, ∑ c : Fin Ci,
      K di dj c o *
        x (i + (di.1 : ℤ) - ((kh / 2 : ℕ) : ℤ)) (j + (dj.1 : ℤ) - ((kw / 2 : ℕ) : ℤ)) c

/-- `MaskedConv2D.call`: multiply the kernel elementwise by the mask built
at construction time, then convolve and add the bias. -/
def maskedConv2dCall (t : MaskType) {kh kw Ci Co : ℕ}
    (K : Fin kh → Fin kw → Fin Ci → Fin Co → ℚ) (b : Fin Co → ℚ)
    (x : FMap Ci) : FMap Co :=
  conv2dSame (fun di dj c o => buildMask t kh kw di.1 dj.1 * K di dj c o) b x

/-- `keras.layers.Conv2D(filters, kernel_size=1, strides=1)`. -/
def conv1x1 {Ci Co : ℕ} (K : Fin Ci → Fin Co → ℚ) (b : Fin Co → ℚ)
    (x : FMap Ci) : FMap Co :=
  fun i j o => b o + ∑ c : Fin Ci, K c o * x i j c

/-- `tf.nn.relu` / `keras.layers.Activation('relu')`. -/
def reluMap {C : ℕ} (x : FMap C) : FMap C :=
  fun i j c => max (x i j c) 0

/-- `GatedBlock._gate`: `tf.split(x, 2, axis=-1)` into two halves of `F`
channels each, then `tanh(half1) * sigmoid(half2)` (`σ` and `τ` stand for
`tanh` and `sigmoid`). -/
def gateAct (σ τ : ℚ → ℚ) {F : ℕ} (x : FMap (2 * F)) : FMap F :=
  fun i j c =>
    σ (x i j ⟨c.1, by have h := c.isLt; omega⟩) *
      τ (x i j ⟨F + c.1, by have h := c.isLt; omega⟩)

/-- Parameters of one `ResidualBlock(h=64)` of `train_pixelcnn2.py`:
1×1 reduce to 64, Type-B masked 3×3, 1×1 expand to 128. -/
structure ResParams where
  aKer : Fin 128 → Fin 64 → ℚ
  aBias : Fin 64 → ℚ
  bKer : Fin 3 → Fin 3 → Fin 64 → Fin 64 → ℚ
  bBias : Fin 64 → ℚ
  cKer : Fin 64 → Fin 128 → ℚ
  cBias : Fin 128 → ℚ

/-- `ResidualBlock.call`: relu → 1×1 → relu → masked-B 3×3 → relu → 1×1,
plus the residual add. -/
def residualBlockCall (p : ResParams) (x : FMap 128) : FMap 128 :=
  let a := conv1x1 p.aKer p.aBias (reluMap x)
  let b := maskedConv2dCall .B p.bKer p.bBias (reluMap a)
  let c := conv1x1 p.cKer p.cBias (reluMap b)
  fun i j ch => c i j ch + x i j ch

/-- Parameters of the plain PixelCNN of `train_pixelcnn2.py`: Type-A 7×7
first layer (1 → 128 channels), 15 residual blocks, then the
relu/1×1/relu/1×1/1×1 head down to `n_channel * q_levels = 4` logits. -/
structure PlainParams where
  firstKer : Fin 7 → Fin 7 → Fin 1 → Fin 128 → ℚ
  firstBias : Fin 128 → ℚ
  blocks : Fin 15 → ResParams
  midKer1 : Fin 128 → Fin 128 → ℚ
  midBias1 : Fin 128 → ℚ
  midKer2 : Fin 128 → Fin 128 → ℚ
  midBias2 : Fin 128 → ℚ
  outKer : Fin 128 → Fin 4 → ℚ
  outBias : Fin 4 → ℚ

/-- The plain PixelCNN network assembly (`main` of `train_pixelcnn2.py`). -/
def plainPixelcnn (p : PlainParams) (img : FMap 1) : FMap 4 :=
  let x0 := maskedConv2dCall .A p.firstKer p.firstBias img
  let xb := (List.finRange 15).foldl
    (fun acc t => residualBlockCall (p.blocks t) acc) x0
  let y1 := conv1x1 p.midKer1 p.midBias1 (reluMap xb)
  let y2 := conv1x1 p.midKer2 p.midBias2 (reluMap y1)
  conv1x1 p.outKer p.outBias y2

/-- Parameters of one `GatedBlock(mask_type, filters=F, kernel_size=k)` of
the autoencoder script: a `V`-masked `k×k` vertical convolution to `2F`
channels, an `A`/`B`-masked `(1, k)` horizontal convolution to `2F`
channels, the 1×1 v-to-h projection, and the 1×1 horizontal output. -/
structure GBParams (k Ci F : ℕ) where
  vKer : Fin k → Fin k → Fin Ci → Fin (2 * F) → ℚ
  vBias : Fin (2 * F) → ℚ
  hKer : Fin 1 → Fin k → Fin Ci → Fin (2 * F) → ℚ
  hBias : Fin (2 * F) → ℚ
  vhKer : Fin (2 * F) → Fin (2 * F) → ℚ
  vhBias : Fin (2 * F) → ℚ
  outKer : Fin F → Fin F → ℚ
  outBias : Fin F → ℚ

/-- `GatedBlock.call` with `mask_type='A'` (the `h_out = h_activated`
branch) on an unpacked `(v, h)` pair. -/
def gatedBlockCallA (σ τ : ℚ → ℚ) {k Ci F : ℕ} (p : GBParams k Ci F)
    (v h : FMap Ci) : FMap F × FMap F :=
  let horizontal_preactivation := maskedConv2dCall .A p.hKer p.hBias h
  let vertical_preactivation := maskedConv2dCall .V p.vKer p.vBias v
  let v_to_h := conv1x1 p.vhKer p.vhBias vertical_preactivation
  let v_out := gateAct σ τ vertical_preactivation
  let summed : FMap (2 * F) :=
    fun i j c => horizontal_preactivation i j c + v_to_h i j c
  let h_activated := conv1x1 p.outKer p.outBias (gateAct σ τ summed)
  (v_out, h_activated)

/-- `GatedBlock.call` with `mask_type='B'` (the `h_out = h + h_activated`
branch) on an unpacked `(v, h)` pair. -/
def gatedBlockCallB (σ τ : ℚ → ℚ) {k F : ℕ} (p : GBParams k F F)
    (v h : FMap F) : FMap F × FMap F :=
  let horizontal_preactivation := maskedConv2dCall .B p.hKer p.hBias h
  let vertical_preactivation := maskedConv2dCall .V p.vKer p.vBias v
  let v_to_h := conv1x1 p.vhKer p.vhBias vertical_preactivation
  let v_out := gateAct σ τ vertical_preactivation
  let summed : FMap (2 * F) :=
    fun i j c => horizontal_preactivation i j c + v_to_h i j c
  let h_activated := conv1x1 p.outKer p.outBias (gateAct σ τ summed)
  (v_out, fun i j c => h i j c + h_activated i j c)

/-- Parameters of the gated network of the autoencoder script: a Type-A
gated block (k = 7) from the 1-channel image, seven Type-B gated blocks
(k = 3), then the relu/1×1/relu/1×1 head down to
`n_channel * q_levels = 256` logits. -/
structure GatedParams where
  first : GBParams 7 1 64
  blocks : Fin 7 → GBParams 3 64 64
  midKer : Fin 64 → Fin 128 → ℚ
  midBias : Fin 128 → ℚ
  outKer : Fin 128 → Fin 256 → ℚ
  outBias : Fin 256 → ℚ

/-- A dynamically-shaped tensor, as Python handles it: a channel count
paired with a feature map.  The assembly's block calls mix 1-channel image
tensors with the 10-channel conditioning tensor in one list, so the list
element type must carry the shape. -/
def TensorQ : Type := (C : ℕ) × FMap C

/-- The body of `GatedBlock.call` with `mask_type='A'` on dynamically
shaped tensors: the computation that would run if `v, h = input_tensor`
had unpacked successfully.  A channel count other than the one the block
was built for is a framework shape error. -/
def blockBodyA (σ τ : ℚ → ℚ) (p : GBParams 7 1 64) (v h : TensorQ) :
    Except String (TensorQ × TensorQ) :=
  if hv : v.1 = 1 then
    if hh : h.1 = 1 then
      let r := gatedBlockCallA σ τ p (hv ▸ v.2) (hh ▸ h.2)
      Except.ok (⟨64, r.1⟩, ⟨64, r.2⟩)
    else Except.error "InvalidArgumentError: channel mismatch"
  else Except.error "InvalidArgumentError: channel mismatch"

/-- The body of `GatedBlock.call` with `mask_type='B'`, as `blockBodyA`. -/
def blockBodyB (σ τ : ℚ → ℚ) (p : GBParams 3 64 64) (v h : TensorQ) :
    Except String (TensorQ × TensorQ) :=
  if hv : v.1 = 64 then
    if hh : h.1 = 64 then
      let r := gatedBlockCallB σ τ p (hv ▸ v.2) (hh ▸ h.2)
      Except.ok (⟨64, r.1⟩, ⟨64, r.2⟩)
    else Except.error "InvalidArgumentError: channel mismatch"
  else Except.error "InvalidArgumentError: channel mismatch"

/-- `GatedBlock.call` with `mask_type='A'` as invoked by the assembly:
`v, h = input_tensor` on the argument list, then the block body. -/
def gatedBlockCallTensorsA (σ τ : ℚ → ℚ) (p : GBParams 7 1 64)
    (ts : List TensorQ) : Except String (TensorQ × TensorQ) := do
  let vh ← unpackTwo ts
  blockBodyA σ τ p vh.1 vh.2

/-- `GatedBlock.call` with `mask_type='B'` as invoked by the assembly. -/
def gatedBlockCallTensorsB (σ τ : ℚ → ℚ) (p : GBParams 3 64 64)
    (ts : List TensorQ) : Except String (TensorQ × TensorQ) := do
  let vh ← unpackTwo ts
  blockBodyB σ τ p vh.1 vh.2

/-- The relu/1×1/relu/1×1 output head of the gated network on the final
horizontal stream. -/
def gatedHead (p : GatedParams) (t : TensorQ) : Except String (FMap 256) :=
  if h64 : t.1 = 64 then
    Except.ok (conv1x1 p.outKer p.outBias
      (reluMap (conv1x1 p.midKer p.midBias (reluMap (h64 ▸ t.2)))))
  else Except.error "InvalidArgumentError: channel mismatch"

/-- The gated network assembly exactly as `main` of the autoencoder script
executes it: the first Type-A gated block and each of the seven Type-B
blocks are called with the three-element list `[v, h, encoded]`
(lines 175/178), and any raised error propagates — nothing after it runs.
The first block call already fails to unpack its input, so the assembly
produces an error, never logits. -/
def gatedAssembly (σ τ : ℚ → ℚ) (p : GatedParams) (img : FMap 1)
    (encoded : FMap 10) : Except String (FMap 256) := do
  let vh0 ← gatedBlockCallTensorsA σ τ p.first [⟨1, img⟩, ⟨1, img⟩, ⟨10, encoded⟩]
  let vh ← (List.finRange 7).foldlM
    (fun acc t => gatedBlockCallTensorsB σ τ (p.blocks t) [acc.1, acc.2, ⟨10, encoded⟩])
    vh0
  gatedHead p vh.2

/-- Strict raster order on positions: `(r, c)` comes strictly before
`(i, j)`. -/
def rasterLT (r c i j : ℤ) : Prop := r < i ∨ (r = i ∧ c < j)

/-- Raster order: `(r, c)` comes at or before `(i, j)`. -/
def rasterLE (r c i j : ℤ) : Prop := rasterLT r c i j ∨ (r = i ∧ c = j)

/-- The value of `f x` at a position is determined by `x` on the strictly
raster-earlier positions. -/
def DepLT {a b : ℕ} (f : FMap a → FMap b) : Prop :=
  ∀ x y : FMap a, ∀ i j : ℤ,
    (∀ r c : ℤ, rasterLT r c i j → ∀ ch, x r c ch = y r c ch) →
    ∀ ch, f x i j ch = f y i j ch

/-- The value of `f x` at a position is determined by `x` on the positions
at or raster-before it. -/
def DepLE {a b : ℕ} (f : FMap a → FMap b) : Prop :=
  ∀ x y : FMap a, ∀ i j : ℤ,
    (∀ r c : ℤ, rasterLE r c i j → ∀ ch, x r c ch = y r c ch) →
    ∀ ch, f x i j ch = f y i j ch

/-- The value of `f x` at a position is determined by `x` on the strictly
higher rows. -/
def DepRow {a b : ℕ} (f : FMap a → FMap b) : Prop :=
  ∀ x y : FMap a, ∀ i j : ℤ,
    (∀ r c : ℤ, r < i → ∀ ch, x r c ch = y r c ch) →
    ∀ ch, f x i j ch = f y i j ch

/-- The all-zero test image. -/
def zeroImg : FMap 1 := fun _ _ _ => 0

/-- A test image that differs from `zeroImg` only at the raster-last
position (27, 27). -/
def lastPixelImg : FMap 1 := fun r c _ => if r = 27 ∧ c = 27 then 1 else 0

/-- The all-zero 10-channel conditioning tensor (for the witness). -/
def zeroEncoded : FMap 10 := fun _ _ _ => 0

/-- All-zero parameters for the plain network (for the witness). -/
def zeroPlainParams : PlainParams where
  firstKer := fun _ _ _ _ => 0
  firstBias := fun _ => 0
  blocks := fun _ =>
    { aKer := fun _ _ => 0, aBias := fun _ => 0
      bKer := fun _ _ _ _ => 0, bBias := fun _ => 0
      cKer := fun _ _ => 0, cBias := fun _ => 0 }
  midKer1 := fun _ _ => 0
  midBias1 := fun _ => 0
  midKer2 := fun _ _ => 0
  midBias2 := fun _ => 0
  outKer := fun _ _ => 0
  outBias := fun _ => 0

/-- All-zero parameters for one gated block (for the witness). -/
def zeroGBParams (k Ci F : ℕ) : GBParams k Ci F where
  vKer := fun _ _ _ _ => 0
  vBias := fun _ => 0
  hKer := fun _ _ _ _ => 0
  hBias := fun _ => 0
  vhKer := fun _ _ => 0
  vhBias := fun _ => 0
  outKer := fun _ _ => 0
  outBias := fun _ => 0

/-- All-zero parameters for the gated network (for the witness). -/
def zeroGatedParams : GatedParams where
  first := zeroGBParams 7 1 64
  blocks := fun _ => zeroGBParams 3 64 64
  midKer := fun _ _ => 0
  midBias := fun _ => 0
  outKer := fun _ _ => 0
  outBias := fun _ => 0

end PixelCNN

namespace PixelCNN

/-! ### Characterisation of the built masks (claim C2) -/

lemma buildMask_V (kh kw r c : ℕ) :
    buildMask .V kh kw r c = if kh / 2 ≤ r then 0 else 1 := by
  simp [buildMask, assignRowsFrom]

lemma buildMask_A (kh kw r c : ℕ) :
    buildMask .A kh kw r c =
      if (r = kh / 2 ∧ kw / 2 ≤ c) ∨ kh / 2 < r then 0 else 1 := by
  simp only [buildMask, assignRowsFrom, assignRowSliceCols]
  split_ifs <;> first | rfl | omega

lemma buildMask_B (kh kw r c : ℕ) :
    buildMask .B kh kw r c =
      if r = kh / 2 ∧ c = kw / 2 then 1 else buildMask .A kh kw r c := by
  simp only [buildMask, buildMask_A, assignRowsFrom, assignRowSliceCols]
  split_ifs <;> first | rfl | omega

end PixelCNN

namespace PixelCNN

/-- Claim C2: for every mask type and kernel size, the mask built at
construction time zeroes exactly the prescribed entries and is 1 everywhere
else: a Vertical mask zeroes every row at or below the centre row
`kernel_h / 2`; a Type-A mask zeroes the centre row from the centre column
`kernel_w / 2` onward (inclusive) plus all rows below the centre row; a
Type-B mask is identical to Type A except that the entry at (centre row,
centre column) is kept at 1. -/
theorem mask_zero_pattern (kh kw r c : ℕ) (hr : r < kh) (hc : c < kw) :
    (buildMask .V kh kw r c = if kh / 2 ≤ r then 0 else 1) ∧
    (buildMask .A kh kw r c =
        if (r = kh / 2 ∧ kw / 2 ≤ c) ∨ kh / 2 < r then 0 else 1) ∧
    (buildMask .B kh kw r c =
        if r = kh / 2 ∧ c = kw / 2 then 1 else buildMask .A kh kw r c) :=
  ⟨buildMask_V kh kw r c, buildMask_A kh kw r c, buildMask_B kh kw r c⟩

/-- Witness for `mask_zero_pattern` at a concrete 3×5 kernel entry. -/
theorem mask_zero_pattern_witness :
    (1 : ℕ) < 3 ∧ (2 : ℕ) < 5 ∧
      ((buildMask .V 3 5 1 2 = if 3 / 2 ≤ 1 then 0 else 1) ∧
       (buildMask .A 3 5 1 2 =
           if (1 = 3 / 2 ∧ 5 / 2 ≤ 2) ∨ 3 / 2 < 1 then 0 else 1) ∧
       (buildMask .B 3 5 1 2 =
           if 1 = 3 / 2 ∧ 2 = 5 / 2 then 1 else buildMask .A 3 5 1 2)) :=
  ⟨by decide, by decide, mask_zero_pattern 3 5 1 2 (by decide) (by decide)⟩

/-! ### Quantization lemmas (claims C4 and C10) -/

lemma length_filter_le_range (n q : ℕ) :
    ((List.range n).filter (fun k => decide (k ≤ q))).length = min n (q + 1) := by
  induction n with
  | zero => simp
  | succ n ih =>
      rw [List.range_succ, List.filter_append, List.length_append, ih]
      by_cases h : n ≤ q
      · simp [List.filter_cons, h]
        omega
      · simp [List.filter_cons, h]
        omega

lemma mul_le_mul_succ_iff (k q m : ℕ) (hk : k ≤ m) (hq : q ≤ m) :
    k * m ≤ q * (m + 1) ↔ k ≤ q := by
  constructor
  · intro h
    by_contra hlt
    push_neg at hlt
    have h2 : (q + 1) * m ≤ k * m := Nat.mul_le_mul_right m hlt
    rw [Nat.succ_mul] at h2
    rw [Nat.mul_succ] at h
    omega
  · intro h
    have h2 : k * m ≤ q * m := Nat.mul_le_mul_right m h
    rw [Nat.mul_succ]
    omega

lemma edge_le_rescaled_iff (Q k q : ℕ) (hQ : 2 ≤ Q) (hk : k < Q) (hq : q ≤ Q - 1) :
    ((k : ℚ) / (Q : ℚ) ≤ (q : ℚ) / ((Q : ℚ) - 1)) ↔ k ≤ q := by
  obtain ⟨m, rfl⟩ : ∃ m, Q = m + 1 := ⟨Q - 1, by omega⟩
  have hm : 1 ≤ m := by omega
  have h0 : (0 : ℚ) < ((m : ℚ) + 1) := by positivity
  have h1 : (0 : ℚ) < ((m + 1 : ℕ) : ℚ) - 1 := by
    push_cast
    have : (1 : ℚ) ≤ (m : ℚ) := by exact_mod_cast hm
    linarith
  rw [show (((m + 1 : ℕ) : ℚ)) = (m : ℚ) + 1 by push_cast; ring] at *
  rw [div_le_div_iff₀ h0 (by linarith : (0 : ℚ) < (m : ℚ) + 1 - 1)]
  have : (m : ℚ) + 1 - 1 = (m : ℚ) := by ring
  rw [this]
  rw [show ((k : ℚ) * (m : ℚ) = ((k * m : ℕ) : ℚ)) by push_cast; ring]
  rw [show ((q : ℚ) * ((m : ℚ) + 1) = ((q * (m + 1) : ℕ) : ℚ)) by push_cast; ring]
  rw [Nat.cast_le]
  exact mul_le_mul_succ_iff k q m (by omega) (by omega)

lemma digitizeCount_rescaled (Q q : ℕ) (hQ : 2 ≤ Q) (hq : q ≤ Q - 1) :
    digitizeCount ((q : ℚ) / ((Q : ℚ) - 1)) (arangeDiv Q) = q + 1 := by
  unfold digitizeCount arangeDiv
  rw [List.filter_map, List.length_map]
  have hcongr :
      (List.range Q).filter
          ((fun b => decide (b ≤ (q : ℚ) / ((Q : ℚ) - 1))) ∘ fun k : ℕ => (k : ℚ) / (Q : ℚ)) =
        (List.range Q).filter (fun k => decide (k ≤ q)) := by
    apply List.filter_congr
    intro k hk
    have hkQ : k < Q := List.mem_range.mp hk
    simp only [Function.comp_apply]
    exact decide_eq_decide.mpr (edge_le_rescaled_iff Q k q hQ hkQ hq)
  rw [hcongr, length_filter_le_range]
  omega

/-- Claim C4: quantization is idempotent under re-quantization for the level
counts the program uses (Q = 4 in `train_pixelcnn2.py`, Q = 256 in the
autoencoder script): for every level `q ≤ Q - 1`, quantizing the rescaled
value `q / (Q - 1)` at the same level count returns exactly `q`, for both
`quantisize` (int32 result) and `quantise` (float32 result). -/
theorem quantize_rescale_roundtrip (Q : ℕ) (hQ : Q = 4 ∨ Q = 256)
    (q : ℕ) (hq : q ≤ Q - 1) :
    quantisize ((q : ℚ) / ((Q : ℚ) - 1)) Q = (q : ℤ) ∧
    quantise ((q : ℚ) / ((Q : ℚ) - 1)) Q = (q : ℚ) := by
  have h2 : 2 ≤ Q := by omega
  have hcount := digitizeCount_rescaled Q q h2 hq
  unfold quantisize quantise
  rw [hcount]
  constructor <;> push_cast <;> ring

/-- Witness for `quantize_rescale_roundtrip` at Q = 4, q = 2. -/
theorem quantize_rescale_roundtrip_witness :
    ((4 : ℕ) = 4 ∨ (4 : ℕ) = 256) ∧ (2 : ℕ) ≤ 4 - 1 ∧
      (quantisize ((2 : ℚ) / ((4 : ℚ) - 1)) 4 = (2 : ℤ) ∧
       quantise ((2 : ℚ) / ((4 : ℚ) - 1)) 4 = (2 : ℚ)) := by
  refine ⟨Or.inl rfl, by omega, ?_⟩
  have h := quantize_rescale_roundtrip 4 (Or.inl rfl) 2 (by omega)
  exact_mod_cast h

/-- Claim C10: for an input value in [0, 1] and a positive level count Q,
quantization returns an integer level in [0, Q - 1] (hence a valid class
index for the Q-way one-hot encoding used by the loss); likewise for the
float-valued `quantise`. -/
theorem quantize_level_in_range (x : ℚ) (Q : ℕ) (hQ : 0 < Q)
    (hx0 : 0 ≤ x) (hx1 : x ≤ 1) :
    (0 ≤ quantisize x Q ∧ quantisize x Q ≤ (Q : ℤ) - 1) ∧
    (0 ≤ quantise x Q ∧ quantise x Q ≤ (Q : ℚ) - 1) := by
  have hmem : (0 : ℚ) ∈ arangeDiv Q := by
    unfold arangeDiv
    apply List.mem_map.mpr
    exact ⟨0, List.mem_range.mpr hQ, by simp⟩
  have hlow : 1 ≤ digitizeCount x (arangeDiv Q) := by
    unfold digitizeCount
    have : (0 : ℚ) ∈ (arangeDiv Q).filter (fun b => decide (b ≤ x)) :=
      List.mem_filter.mpr ⟨hmem, decide_eq_true hx0⟩
    have hne := List.ne_nil_of_mem this
    have := List.length_pos.mpr hne
    omega
  have hhigh : digitizeCount x (arangeDiv Q) ≤ Q := by
    unfold digitizeCount
    have h1 := List.length_filter_le (fun b => decide (b ≤ x)) (arangeDiv Q)
    have h2 : (arangeDiv Q).length = Q := by
      unfold arangeDiv
      rw [List.length_map, List.length_range]
    omega
  unfold quantisize quantise
  refine ⟨⟨by omega, by omega⟩, ?_, ?_⟩
  · have : (1 : ℚ) ≤ (digitizeCount x (arangeDiv Q) : ℚ) := by exact_mod_cast hlow
    linarith
  · have : ((digitizeCount x (arangeDiv Q) : ℚ)) ≤ (Q : ℚ) := by exact_mod_cast hhigh
    linarith

/-- Witness for `quantize_level_in_range` at x = 1/2, Q = 4. -/
theorem quantize_level_in_range_witness :
    (0 : ℕ) < 4 ∧ (0 : ℚ) ≤ 1/2 ∧ (1/2 : ℚ) ≤ 1 ∧
      ((0 ≤ quantisize (1/2) 4 ∧ quantisize (1/2) 4 ≤ (4 : ℤ) - 1) ∧
       (0 ≤ quantise (1/2) 4 ∧ quantise (1/2) 4 ≤ (4 : ℚ) - 1)) := by
  refine ⟨by omega, by norm_num, by norm_num, ?_⟩
  have h := quantize_level_in_range (1/2) 4 (by omega) (by norm_num) (by norm_num)
  exact_mod_cast h

/-! ### Construction-time validation (claim C5) -/

/-- Counterexample to claim C5: a non-odd kernel dimension is *not* a
construction-time error.  Constructing a masked convolution with the even
kernel size 4 succeeds in both scripts (here with mask types `A` and `V`),
because neither `__init__` inspects the kernel size. -/
theorem even_kernel_size_accepted :
    exceptOk (maskedConv2DInitPlain "A" 128 4 1) = true ∧ (4 : ℕ) % 2 = 0 ∧
    exceptOk (maskedConv2DInitGated "V" 64 (Sum.inl 4)) = true := by
  refine ⟨?_, rfl, ?_⟩ <;> rfl

/-- Claim C5 (amended): construction fails immediately — with an
`AssertionError` and no partially constructed layer — exactly when the mask
type lies outside the declared set (`{A, B}` for `train_pixelcnn2.py`,
`{A, B, V}` for the autoencoder script); the kernel size, odd or even, is
never validated (the outcome below is independent of it). -/
theorem mask_type_validation (mt : String) (filters ks strides : ℕ) (kp : ℕ ⊕ ℕ × ℕ) :
    (exceptOk (maskedConv2DInitPlain mt filters ks strides) = true ↔
        (mt = "A" ∨ mt = "B")) ∧
    (¬(mt = "A" ∨ mt = "B") →
        maskedConv2DInitPlain mt filters ks strides = Except.error "AssertionError") ∧
    (exceptOk (maskedConv2DInitGated mt filters kp) = true ↔
        (mt = "A" ∨ mt = "B" ∨ mt = "V")) ∧
    (¬(mt = "A" ∨ mt = "B" ∨ mt = "V") →
        maskedConv2DInitGated mt filters kp = Except.error "AssertionError") := by
  unfold maskedConv2DInitPlain maskedConv2DInitGated
  split_ifs with h1 h2 <;> simp_all [exceptOk]

/-- Witness for `mask_type_validation` at the out-of-set mask type `"X"`. -/
theorem mask_type_validation_witness :
    (¬("X" = "A" ∨ "X" = "B")) ∧
      maskedConv2DInitPlain "X" 128 7 1 = Except.error "AssertionError" ∧
      maskedConv2DInitGated "X" 64 (Sum.inl 7) = Except.error "AssertionError" :=
  ⟨by decide,
   (mask_type_validation "X" 128 7 1 (Sum.inl 7)).2.1 (by decide),
   (mask_type_validation "X" 128 7 1 (Sum.inl 7)).2.2.2 (by decide)⟩

/-! ### The conditioning broadcast (claim C9) -/

/-- Counterexample to claim C9 as stated: a batch of size 1 differs from the
hardcoded `batch_size` 128 and yet its conditioning broadcast succeeds,
since a source dimension of 1 is broadcastable to 128. -/
theorem broadcast_batch_one_ok : condBroadcastOk 1 = true ∧ (1 : ℕ) ≠ 128 := by
  exact ⟨rfl, by decide⟩

/-- Claim C9 (amended): the conditioning broadcast, whose target shape is
fixed to `[batch_size = 128, height, width, 10]`, succeeds exactly on batch
sizes 128 and 1; in particular the final partial training batch of
`60000 % 128 = 96` images fails there. -/
theorem cond_broadcast_partial_batch (n : ℕ) :
    (condBroadcastOk n = true ↔ (n = 128 ∨ n = 1)) ∧
    60000 % 128 = 96 ∧ condBroadcastOk 96 = false := by
  refine ⟨?_, by decide, by decide⟩
  unfold condBroadcastOk broadcastCompatible encodedShape condBroadcastTarget
  simp [List.zip, List.all_cons]

/-! ### The conditioning tensor never enters `GatedBlock.call` (claim C3) -/

/-- Claim C3 — the code diverges from it (`code_bug`): `GatedBlock.call`
starts with `v, h = input_tensor`, which unpacks exactly two values, while
the network assembly calls every gated block with the three-element list
`[inputs, inputs, encoded]`.  The call therefore raises `ValueError` and
the conditioning tensor is never added to either stream, let alone at the
v-to-h summation point. -/
theorem gated_block_rejects_conditioning_list {T : Type} (core : T → T → T × T)
    (v h e : T) :
    gatedBlockCallOnList core [v, h, e] =
      Except.error "ValueError: cannot unpack into exactly two values" := rfl

/-! ### Learning-rate schedules and gradient clipping (claim C6) -/

lemma lrGatedAE_pos (n : ℕ) : 0 < lrGatedAE n := by
  induction n with
  | zero => norm_num [lrGatedAE]
  | succ n ih =>
      rw [lrGatedAE]
      positivity

lemma sumSq_map_mul (gs : List ℚ) (c : ℚ) :
    sumSq (gs.map (fun g => g * c)) = c ^ 2 * sumSq gs := by
  induction gs with
  | nil => simp [sumSq]
  | cons g gs ih =>
      simp only [List.map_cons, sumSq, List.sum_cons] at *
      rw [ih]
      ring

/-- Counterexample to claim C6 as stated: in `train_pixelcnn2.py` the
optimizer's learning rate never decays — the rate at iteration 1 equals the
rate at iteration 0 (the fixed 3e-4). -/
theorem plain_lr_not_decaying :
    lrPlain 1 = lrPlain 0 ∧ ¬ lrPlain 1 < lrPlain 0 := by
  exact ⟨rfl, by norm_num [lrPlain]⟩

/-- Claim C6 (amended): every training step performs, in this order, the
forward pass, the reshape/transpose of the logits, the categorical
cross-entropy against the targets, backpropagation, clipping of the global
gradient norm to the fixed threshold 1.0, and the optimizer step; clipping
indeed brings the global norm to at most 1.  The learning rate decays
geometrically (factor 0.9995 per iteration) only in the autoencoder
variant; `train_pixelcnn2.py` uses the constant rate 3e-4. -/
theorem train_step_pipeline :
    (∀ {P X Y L : Type} (forward : P → X → L) (reshapeT : L → L)
        (lossFn : L → Y → ℚ) (gradFn : ℚ → P → List ℚ) (gnorm : List ℚ → ℚ)
        (applyOpt : P → List ℚ → P) (p : P) (x : X) (y : Y),
      trainStepModel forward reshapeT lossFn gradFn gnorm applyOpt p x y =
        (applyOpt p
            (clipByGlobalNorm (gnorm (gradFn (lossFn (reshapeT (forward p x)) y) p)) 1
              (gradFn (lossFn (reshapeT (forward p x)) y) p)),
         lossFn (reshapeT (forward p x)) y)) ∧
    (∀ n, lrGatedAE (n + 1) = 9995 / 10000 * lrGatedAE n ∧
        lrGatedAE (n + 1) < lrGatedAE n) ∧
    (∀ n, lrPlain n = 3 / 10000) ∧
    (∀ (gs : List ℚ) (gn : ℚ), 0 ≤ gn → gn ^ 2 = sumSq gs →
        sumSq (clipByGlobalNorm gn 1 gs) ≤ 1) := by
  refine ⟨?_, ?_, fun _ => rfl, ?_⟩
  · intro P X Y L forward reshapeT lossFn gradFn gnorm applyOpt p x y
    rfl
  · intro n
    constructor
    · rw [lrGatedAE]
      ring
    · rw [lrGatedAE]
      have := lrGatedAE_pos n
      nlinarith
  · intro gs gn hgn0 hgn
    unfold clipByGlobalNorm
    split_ifs with h
    · rw [← hgn]
      nlinarith
    · rw [sumSq_map_mul, ← hgn]
      push_neg at h
      have hne : gn ≠ 0 := by linarith
      have : (1 / gn) ^ 2 * gn ^ 2 = 1 := by
        field_simp
      simp only [one_div]
      calc gn⁻¹ ^ 2 * gn ^ 2 = (1 / gn) ^ 2 * gn ^ 2 := by rw [one_div]
        _ = 1 := this
        _ ≤ 1 := le_refl 1

/-- Witness for `train_step_pipeline` with a concrete clipped gradient. -/
theorem train_step_pipeline_witness :
    (0 : ℚ) ≤ 2 ∧ (2 : ℚ) ^ 2 = sumSq [2] ∧
      sumSq (clipByGlobalNorm 2 1 [2]) ≤ 1 ∧ lrGatedAE 1 < lrGatedAE 0 :=
  ⟨by norm_num, by norm_num [sumSq],
   train_step_pipeline.2.2.2 [2] 2 (by norm_num) (by norm_num [sumSq]),
   (train_step_pipeline.2.1 0).2⟩

/-! ### The ancestral sampling loop (claims C7 and C8) -/

lemma foldl_flatMap {A B S : Type} (l : List A) (g : A → List B) (f : S → B → S)
    (s : S) :
    (l.flatMap g).foldl f s = l.foldl (fun s a => (g a).foldl f s) s := by
  induction l generalizing s with
  | nil => rfl
  | cons a l ih =>
      rw [List.flatMap_cons, List.foldl_append, List.foldl_cons, ih]

lemma sampleFromRng_length {R : Type} (draw : R → List ℚ → ℕ × R) (rng : R)
    (ds : List (List ℚ)) :
    (sampleFromRng draw rng ds).1.length = ds.length := by
  induction ds generalizing rng with
  | nil => rfl
  | cons d ds ih =>
      rw [sampleFromRng]
      simp [ih]

lemma map_eval_zipWith_writePix (as : List Img) (bs : List ℕ)
    (hlen : as.length = bs.length) (pi pj i j : ℕ) (h : ¬(i = pi ∧ j = pj))
    (v : ℕ → ℚ) :
    (List.zipWith (fun img lv => writePix img pi pj (v lv)) as bs).map
        (fun img => img i j) =
      as.map (fun img => img i j) := by
  induction as generalizing bs with
  | nil => simp
  | cons a as ih =>
      cases bs with
      | nil => simp at hlen
      | cons b bs =>
          simp only [List.zipWith_cons_cons, List.map_cons]
          rw [ih bs (by simpa using hlen)]
          congr 1
          simp [writePix, h]

lemma samplerStep_untouched {R : Type} (q_levels : ℕ)
    (predict : Img → ℕ → ℕ → List ℚ) (draw : R → List ℚ → ℕ × R)
    (st : List Img × R) (p : ℕ × ℕ) (i j : ℕ) (h : ¬(i = p.1 ∧ j = p.2)) :
    (samplerStep q_levels predict draw st p).1.map (fun img => img i j) =
      st.1.map (fun img => img i j) := by
  unfold samplerStep
  apply map_eval_zipWith_writePix
  · rw [sampleFromRng_length, List.length_map]
  · exact h

lemma foldl_samplerStep_untouched {R : Type} (q_levels : ℕ)
    (predict : Img → ℕ → ℕ → List ℚ) (draw : R → List ℚ → ℕ × R)
    (l : List (ℕ × ℕ)) (st : List Img × R) (i j : ℕ)
    (h : ∀ p ∈ l, ¬(i = p.1 ∧ j = p.2)) :
    (l.foldl (samplerStep q_levels predict draw) st).1.map (fun img => img i j) =
      st.1.map (fun img => img i j) := by
  induction l generalizing st with
  | nil => rfl
  | cons p l ih =>
      rw [List.foldl_cons, ih _ (fun q hq => h q (List.mem_cons_of_mem p hq)),
        samplerStep_untouched q_levels predict draw st p i j
          (h p (List.mem_cons_self p l))]

lemma rasterOrder_mem (startRow H W i j : ℕ) :
    (i, j) ∈ rasterOrder startRow H W ↔ startRow ≤ i ∧ i < H ∧ j < W := by
  unfold rasterOrder
  simp only [List.mem_flatMap, List.mem_map, List.mem_range, List.mem_range'_1,
    Prod.mk.injEq]
  constructor
  · rintro ⟨a, ⟨ha1, ha2⟩, b, hb, rfl, rfl⟩
    omega
  · rintro ⟨h1, h2, h3⟩
    exact ⟨i, by omega, j, h3, rfl, rfl⟩

/-- Claim C7: the ancestral sampler visits the raster-order positions —
rows from `startRow` (0, or the occlusion start row 14) to `H - 1`, columns
0 to `W - 1` — folding the per-position update (full forward pass on the
whole current canvas, per-image categorical draw at `(i, j)`, rescaled
write-back at `(i, j)`, updated canvas threaded to the next position) over
exactly that position list; the canvas is never modified at positions
outside the visited range. -/
theorem sampler_visits_raster_order {R : Type} (q_levels : ℕ)
    (predict : Img → ℕ → ℕ → List ℚ) (draw : R → List ℚ → ℕ × R)
    (startRow H W : ℕ) (st0 : List Img × R) :
    (samplerLoopNested q_levels predict draw startRow H W st0 =
        (rasterOrder startRow H W).foldl (samplerStep q_levels predict draw) st0) ∧
    (∀ i j, (i, j) ∈ rasterOrder startRow H W ↔ startRow ≤ i ∧ i < H ∧ j < W) ∧
    (∀ i j, (i, j) ∉ rasterOrder startRow H W →
        (samplerLoopNested q_levels predict draw startRow H W st0).1.map
            (fun img => img i j) =
          st0.1.map (fun img => img i j)) := by
  have hfun : (fun (st : List Img × R) (i : ℕ) =>
      (List.range W).foldl (fun st2 j => samplerStep q_levels predict draw st2 (i, j)) st) =
        fun (st : List Img × R) (i : ℕ) =>
          ((List.range W).map (fun j => (i, j))).foldl
            (samplerStep q_levels predict draw) st := by
    funext st i
    rw [List.foldl_map]
  have hfold : samplerLoopNested q_levels predict draw startRow H W st0 =
      (rasterOrder startRow H W).foldl (samplerStep q_levels predict draw) st0 := by
    unfold samplerLoopNested rasterOrder
    rw [foldl_flatMap, hfun]
  refine ⟨hfold, fun i j => rasterOrder_mem startRow H W i j, ?_⟩
  intro i j hnot
  rw [hfold]
  apply foldl_samplerStep_untouched
  rintro ⟨a, b⟩ hab ⟨rfl, rfl⟩
  exact hnot hab

/-- Witness for `sampler_visits_raster_order`: on a 3×3 grid started at row
0, position (3, 0) is outside the visited range and the canvas there is
untouched. -/
theorem sampler_visits_raster_order_witness :
    ((3, 0) ∉ rasterOrder 0 3 3) ∧
      ((samplerLoopNested 4 (fun _ _ _ => [1]) (fun r _ => (0, r + 1)) 0 3 3
            ([fun _ _ => 0], (0 : ℕ))).1.map (fun img => img 3 0) =
        [fun _ _ => (0 : ℚ)].map (fun img => img 3 0)) :=
  ⟨by decide,
   (sampler_visits_raster_order 4 (fun _ _ _ => [1]) (fun r _ => (0, r + 1)) 0 3 3
       ([fun _ _ => 0], (0 : ℕ))).2.2 3 0 (by decide)⟩

/-- Claim C8: sampling is deterministic under a fixed seed.  All randomness
in the sampler is the explicit generator state threaded through `draw`
(numpy's generator, seeded once at startup); two runs with the same
parameters (`predict`), the same generator function and seed, and the same
initial canvas produce identical final canvases. -/
theorem sampling_deterministic {R : Type} (q_levels : ℕ)
    (predict : Img → ℕ → ℕ → List ℚ) (draw : R → List ℚ → ℕ × R)
    (startRow H W : ℕ) (c0 c1 : List Img) (r0 r1 : R)
    (hc : c0 = c1) (hr : r0 = r1) :
    samplerLoopNested q_levels predict draw startRow H W (c0, r0) =
      samplerLoopNested q_levels predict draw startRow H W (c1, r1) := by
  rw [hc, hr]

/-- Witness for `sampling_deterministic` at a concrete seeded run. -/
theorem sampling_deterministic_witness :
    samplerLoopNested 4 (fun _ _ _ => [1]) (fun r _ => (0, r + 1)) 0 2 2
        ([fun _ _ => 0], (42 : ℕ)) =
      samplerLoopNested 4 (fun _ _ _ => [1]) (fun r _ => (0, r + 1)) 0 2 2
        ([fun _ _ => 0], (42 : ℕ)) :=
  sampling_deterministic 4 (fun _ _ _ => [1]) (fun r _ => (0, r + 1)) 0 2 2
    [fun _ _ => 0] [fun _ _ => 0] 42 42 rfl rfl

/-! ### The causal masking invariant (claim C1)

Each masked convolution reads its input only through the nonzero mask
entries; the mask characterisations of claim C2 turn this into the raster
dependency facts below, which compose through the residual/gated stacks. -/

lemma rasterLE_refl (i j : ℤ) : rasterLE i j i j := Or.inr ⟨rfl, rfl⟩

lemma rasterLE_trans {a b c d e f : ℤ} (h1 : rasterLE a b c d)
    (h2 : rasterLE c d e f) : rasterLE a b e f := by
  simp only [rasterLE, rasterLT] at *
  omega

lemma rasterLT_of_LT_of_LE {a b c d e f : ℤ} (h1 : rasterLT a b c d)
    (h2 : rasterLE c d e f) : rasterLT a b e f := by
  simp only [rasterLE, rasterLT] at *
  omega

lemma buildMask_V_cases (kh kw r c : ℕ) :
    buildMask .V kh kw r c = 0 ∨ r < kh / 2 := by
  rw [buildMask_V]
  split_ifs with h
  · exact Or.inl rfl
  · exact Or.inr (by omega)

lemma buildMask_A_cases (kh kw r c : ℕ) :
    buildMask .A kh kw r c = 0 ∨ (r < kh / 2 ∨ (r = kh / 2 ∧ c < kw / 2)) := by
  rw [buildMask_A]
  split_ifs with h
  · exact Or.inl rfl
  · exact Or.inr (by omega)

lemma buildMask_B_cases (kh kw r c : ℕ) :
    buildMask .B kh kw r c = 0 ∨ (r < kh / 2 ∨ (r = kh / 2 ∧ c ≤ kw / 2)) := by
  rw [buildMask_B, buildMask_A]
  split_ifs with h1 h2
  · exact Or.inr (by omega)
  · exact Or.inl rfl
  · exact Or.inr (by omega)

lemma depLT_maskedConvA {kh kw Ci Co : ℕ}
    (K : Fin kh → Fin kw → Fin Ci → Fin Co → ℚ) (b : Fin Co → ℚ) :
    DepLT (maskedConv2dCall .A K b) := by
  intro x y i j hxy ch
  unfold maskedConv2dCall conv2dSame
  dsimp only
  congr 1
  refine Finset.sum_congr rfl fun di _ =>
    Finset.sum_congr rfl fun dj _ => Finset.sum_congr rfl fun c _ => ?_
  rcases buildMask_A_cases kh kw di.1 dj.1 with h0 | hpos
  · rw [h0]
    ring
  · have hread : rasterLT (i + (di.1 : ℤ) - ((kh / 2 : ℕ) : ℤ))
        (j + (dj.1 : ℤ) - ((kw / 2 : ℕ) : ℤ)) i j := by
      simp only [rasterLT]
      rcases hpos with h | ⟨he, hc⟩
      · have h2 : ((di.1 : ℕ) : ℤ) < ((kh / 2 : ℕ) : ℤ) := by exact_mod_cast h
        omega
      · have h2 : ((di.1 : ℕ) : ℤ) = ((kh / 2 : ℕ) : ℤ) := by exact_mod_cast he
        have h3 : ((dj.1 : ℕ) : ℤ) < ((kw / 2 : ℕ) : ℤ) := by exact_mod_cast hc
        omega
    rw [hxy _ _ hread c]

lemma depLE_maskedConvB {kh kw Ci Co : ℕ}
    (K : Fin kh → Fin kw → Fin Ci → Fin Co → ℚ) (b : Fin Co → ℚ) :
    DepLE (maskedConv2dCall .B K b) := by
  intro x y i j hxy ch
  unfold maskedConv2dCall conv2dSame
  dsimp only
  congr 1
  refine Finset.sum_congr rfl fun di _ =>
    Finset.sum_congr rfl fun dj _ => Finset.sum_congr rfl fun c _ => ?_
  rcases buildMask_B_cases kh kw di.1 dj.1 with h0 | hpos
  · rw [h0]
    ring
  · have hread : rasterLE (i + (di.1 : ℤ) - ((kh / 2 : ℕ) : ℤ))
        (j + (dj.1 : ℤ) - ((kw / 2 : ℕ) : ℤ)) i j := by
      simp only [rasterLE, rasterLT]
      rcases hpos with h | ⟨he, hc⟩
      · have h2 : ((di.1 : ℕ) : ℤ) < ((kh / 2 : ℕ) : ℤ) := by exact_mod_cast h
        omega
      · have h2 : ((di.1 : ℕ) : ℤ) = ((kh / 2 : ℕ) : ℤ) := by exact_mod_cast he
        have h3 : ((dj.1 : ℕ) : ℤ) ≤ ((kw / 2 : ℕ) : ℤ) := by exact_mod_cast hc
        omega
    rw [hxy _ _ hread c]

lemma depRow_maskedConvV {kh kw Ci Co : ℕ}
    (K : Fin kh → Fin kw → Fin Ci → Fin Co → ℚ) (b : Fin Co → ℚ) :
    DepRow (maskedConv2dCall .V K b) := by
  intro x y i j hxy ch
  unfold maskedConv2dCall conv2dSame
  dsimp only
  congr 1
  refine Finset.sum_congr rfl fun di _ =>
    Finset.sum_congr rfl fun dj _ => Finset.sum_congr rfl fun c _ => ?_
  rcases buildMask_V_cases kh kw di.1 dj.1 with h0 | hpos
  · rw [h0]
    ring
  · have hread : i + (di.1 : ℤ) - ((kh / 2 : ℕ) : ℤ) < i := by
      have h2 : ((di.1 : ℕ) : ℤ) < ((kh / 2 : ℕ) : ℤ) := by exact_mod_cast hpos
      omega
    rw [hxy _ _ hread c]

lemma conv1x1_congr {Ci Co : ℕ} (K : Fin Ci → Fin Co → ℚ) (b : Fin Co → ℚ)
    (x y : FMap Ci) (i j : ℤ) (h : ∀ ch, x i j ch = y i j ch) :
    ∀ o, conv1x1 K b x i j o = conv1x1 K b y i j o := by
  intro o
  unfold conv1x1
  congr 1
  exact Finset.sum_congr rfl fun c _ => by rw [h c]

lemma reluMap_congr {C : ℕ} (x y : FMap C) (i j : ℤ)
    (h : ∀ ch, x i j ch = y i j ch) :
    ∀ ch, reluMap x i j ch = reluMap y i j ch := by
  intro ch
  unfold reluMap
  rw [h ch]

lemma gateAct_congr (σ τ : ℚ → ℚ) {F : ℕ} (x y : FMap (2 * F)) (i j : ℤ)
    (h : ∀ ch, x i j ch = y i j ch) :
    ∀ c, gateAct σ τ x i j c = gateAct σ τ y i j c := by
  intro c
  unfold gateAct
  rw [h _, h _]

lemma DepLE_comp {a b c : ℕ} {g : FMap b → FMap c} {f : FMap a → FMap b}
    (hg : DepLE g) (hf : DepLE f) : DepLE (fun x => g (f x)) := by
  intro x y i j hxy ch
  apply hg
  intro r cc hrc ch2
  apply hf
  intro r2 c2 hr2 ch3
  exact hxy r2 c2 (rasterLE_trans hr2 hrc) ch3

lemma DepLT_comp {a b c : ℕ} {g : FMap b → FMap c} {f : FMap a → FMap b}
    (hg : DepLE g) (hf : DepLT f) : DepLT (fun x => g (f x)) := by
  intro x y i j hxy ch
  apply hg
  intro r cc hrc ch2
  apply hf
  intro r2 c2 hr2 ch3
  exact hxy r2 c2 (rasterLT_of_LT_of_LE hr2 hrc) ch3

lemma depLE_conv1x1 {Ci Co : ℕ} (K : Fin Ci → Fin Co → ℚ) (b : Fin Co → ℚ) :
    DepLE (conv1x1 K b) := by
  intro x y i j hxy
  exact conv1x1_congr K b x y i j (fun ch => hxy i j (rasterLE_refl i j) ch)

lemma depLE_reluMap {C : ℕ} : DepLE (reluMap (C := C)) := by
  intro x y i j hxy
  exact reluMap_congr x y i j (fun ch => hxy i j (rasterLE_refl i j) ch)

lemma depLE_residualBlock (p : ResParams) : DepLE (residualBlockCall p) := by
  have hchain : DepLE (fun x : FMap 128 =>
      conv1x1 p.cKer p.cBias (reluMap (maskedConv2dCall .B p.bKer p.bBias
        (reluMap (conv1x1 p.aKer p.aBias (reluMap x)))))) :=
    DepLE_comp (depLE_conv1x1 _ _) (DepLE_comp depLE_reluMap
      (DepLE_comp (depLE_maskedConvB _ _) (DepLE_comp depLE_reluMap
        (DepLE_comp (depLE_conv1x1 _ _) depLE_reluMap))))
  intro x y i j hxy ch
  unfold residualBlockCall
  exact congrArg₂ (fun a b => a + b) (hchain x y i j hxy ch)
    (hxy i j (rasterLE_refl i j) ch)

lemma depLE_residual_foldl (blocks : Fin 15 → ResParams) (l : List (Fin 15)) :
    DepLE (fun x : FMap 128 =>
      l.foldl (fun acc t => residualBlockCall (blocks t) acc) x) := by
  induction l with
  | nil =>
      intro x y i j hxy ch
      exact hxy i j (rasterLE_refl i j) ch
  | cons t l ih =>
      intro x y i j hxy ch
      simp only [List.foldl_cons]
      exact DepLE_comp ih (depLE_residualBlock (blocks t)) x y i j hxy ch

/-- The whole plain PixelCNN is strictly causal: its logits at a position
are determined by the input on the strictly raster-earlier positions. -/
lemma depLT_plainPixelcnn (p : PlainParams) : DepLT (plainPixelcnn p) := by
  have hhead : DepLE (fun x : FMap 128 =>
      conv1x1 p.outKer p.outBias (conv1x1 p.midKer2 p.midBias2
        (reluMap (conv1x1 p.midKer1 p.midBias1 (reluMap x))))) :=
    DepLE_comp (depLE_conv1x1 _ _) (DepLE_comp (depLE_conv1x1 _ _)
      (DepLE_comp depLE_reluMap (DepLE_comp (depLE_conv1x1 _ _) depLE_reluMap)))
  intro x y i j hxy ch
  unfold plainPixelcnn
  exact DepLT_comp (DepLE_comp hhead (depLE_residual_foldl p.blocks (List.finRange 15)))
    (depLT_maskedConvA _ _) x y i j hxy ch

/-- Counterexample to claim C1 as stated: the gated variant never produces
logits at all.  On a concrete input (the all-zero image and conditioning
code, all-zero parameters, identity activations), the forward pass of the
gated assembly raises `ValueError` at the first block call — its
`v, h = input_tensor` cannot unpack the three-element list the assembly
passes — so there are no logits at any position whose invariance could be
asserted. -/
theorem gated_assembly_no_logits :
    gatedAssembly id id zeroGatedParams zeroImg zeroEncoded =
      Except.error "ValueError: cannot unpack into exactly two values" := rfl

/-- Claim C1 (amended): for every input image and raster position `(i, j)`,
altering pixels only at raster positions strictly after `(i, j)` — so the
two 28×28 inputs agree at every position at or raster-before `(i, j)` —
does not change the plain PixelCNN's output logits at `(i, j)` (Type-A
first layer followed by Type-B residual blocks).  The gated variant never
produces logits whose invariance could be stated: its assembly calls every
gated block with a three-element list that `v, h = input_tensor` cannot
unpack, so its forward pass yields a `ValueError` on every input. -/
theorem causal_masking_invariant_amended (σ τ : ℚ → ℚ) (pP : PlainParams)
    (pG : GatedParams) (x y : FMap 1) (encoded : FMap 10) (i j : ℤ)
    (hagree : ∀ r c : ℤ, rasterLE r c i j → ∀ ch, x r c ch = y r c ch) :
    (∀ ch, plainPixelcnn pP (padGrid 28 28 x) i j ch =
        plainPixelcnn pP (padGrid 28 28 y) i j ch) ∧
    gatedAssembly σ τ pG (padGrid 28 28 x) encoded =
      Except.error "ValueError: cannot unpack into exactly two values" := by
  have hpad : ∀ r c : ℤ, rasterLT r c i j →
      ∀ ch, padGrid 28 28 x r c ch = padGrid 28 28 y r c ch := by
    intro r c hrc ch
    unfold padGrid
    split_ifs with h
    · exact hagree r c (Or.inl hrc) ch
    · rfl
  exact ⟨depLT_plainPixelcnn pP (padGrid 28 28 x) (padGrid 28 28 y) i j hpad, rfl⟩

/-- Witness for `causal_masking_invariant_amended`: the all-zero image
against the image whose only nonzero pixel is at the raster-last position
(27, 27), compared at position (0, 0). -/
theorem causal_masking_invariant_amended_witness :
    plainPixelcnn zeroPlainParams (padGrid 28 28 zeroImg) 0 0 0 =
      plainPixelcnn zeroPlainParams (padGrid 28 28 lastPixelImg) 0 0 0 ∧
    gatedAssembly id id zeroGatedParams (padGrid 28 28 zeroImg) zeroEncoded =
      Except.error "ValueError: cannot unpack into exactly two values" := by
  have hagree : ∀ r c : ℤ, rasterLE r c 0 0 →
      ∀ ch, zeroImg r c ch = lastPixelImg r c ch := by
    intro r c hrc ch
    unfold zeroImg lastPixelImg
    have hne : ¬(r = 27 ∧ c = 27) := by
      simp only [rasterLE, rasterLT] at hrc
      omega
    rw [if_neg hne]
  have h := causal_masking_invariant_amended id id zeroPlainParams zeroGatedParams
    zeroImg lastPixelImg zeroEncoded 0 0 hagree
  exact ⟨h.1 0, h.2⟩

end PixelCNN
